import Mathlib

/-!
Shallow embedding of `apps/demodulators/WBFM.py` (class `TunerDemodWBFM`):
the multirate WBFM demodulation and gating chain.  Python floats are
modelled as exact rationals (`ℚ`) or reals (`ℝ`); Python ints as `ℕ`/`ℤ`;
Python exceptions as an explicit `Except` error type.  GNU Radio block
constructors are external library calls: they are embedded as records of
the arguments the source passes to them.
-/

namespace WBFM

/-- Errors the embedded code can signal.  `valueError` is what Python's
`list.index` raises on a missing element and `zeroDivisionError` what a
division by zero raises; `configurationError` is the validation error the
specification describes and is included only so that statements about it
can be expressed (the source never raises it). -/
inductive PyErr where
  | valueError
  | indexError
  | zeroDivisionError
  | configurationError
deriving DecidableEq, Repr

/-- Python division `a / b`: raises `ZeroDivisionError` when `b = 0`,
otherwise yields the exact quotient. -/
def pyDiv (a b : ℚ) : Except PyErr ℚ :=
  if b = 0 then .error .zeroDivisionError else .ok (a / b)

/-- Line 86: `decims = (5, int(samp_rate/1E6))`.  For a natural
`samp_rate` the truncation `int(samp_rate/1E6)` is natural floor
division by 1,000,000. -/
def decims (samp_rate : ℕ) : ℕ × ℕ :=
  (5, samp_rate / 1000000)

/-- Window argument of `grfilter.firdes.low_pass`; the source always
passes `window.WIN_HAMMING`. -/
inductive Window where
  | hamming
deriving DecidableEq, Repr

/-- Arguments of a `grfilter.firdes.low_pass(gain, sampRate, cutoff,
transition, win)` call; the tap computation itself is GNU Radio library
code, so the call is embedded as its argument record. -/
structure FirdesLowPass where
  gain : ℚ
  sampRate : ℚ
  cutoff : ℚ
  transition : ℚ
  win : Window
deriving DecidableEq, Repr

/-- Lines 89-91: `low_pass(1, 1, 0.090, 0.010, WIN_HAMMING)`, the
rate-independent taps shared by the two decimate-by-5 complex stages. -/
def low_pass_filter_taps_0 : FirdesLowPass :=
  ⟨1, 1, 0.090, 0.010, .hamming⟩

/-- Lines 106-107: `low_pass(1, samp_rate/decims[0]**2, 12.5E3, 1E3,
WIN_HAMMING)` — the 12.5 kHz channel filter ahead of the
decimate-by-`decims[1]` stage. -/
def low_pass_filter_taps_1 (samp_rate : ℕ) : FirdesLowPass :=
  ⟨1, (samp_rate : ℚ) / ((decims samp_rate).1 : ℚ) ^ 2, 12500, 1000, .hamming⟩

/-- Lines 123-125: `low_pass(1, samp_rate/(decims[1]*decims[0]**2),
3.5E3, 500, WIN_HAMMING)` — the 3.5 kHz audio filter.  The rate argument
divides by `decims[1] * 25`. -/
def low_pass_filter_taps_2_rate (samp_rate : ℕ) : Except PyErr ℚ :=
  pyDiv samp_rate (((decims samp_rate).2 : ℚ) * ((decims samp_rate).1 : ℚ) ^ 2)

/-- Line 133 denominator rate: `samp_rate/(decims[1] * decims[0]**3)`,
the sample rate entering the polyphase resampler. -/
def preResampRate (samp_rate : ℕ) : ℚ :=
  (samp_rate : ℚ) / (((decims samp_rate).2 : ℚ) * ((decims samp_rate).1 : ℚ) ^ 3)

/-- Line 133: `pfb_resamp = audio_rate/float(samp_rate/(decims[1] *
decims[0]**3))`, the resampling ratio of `pfb.arb_resampler_fff`. -/
def pfb_resamp (samp_rate audio_rate : ℕ) : ℚ :=
  (audio_rate : ℚ) / preResampRate samp_rate

/-- Output sample rate of the chain: the rate entering the resampler
multiplied by the resampling ratio. -/
def finalRate (samp_rate audio_rate : ℕ) : ℚ :=
  preResampRate samp_rate * pfb_resamp samp_rate audio_rate

/-- Python `list.index(x)`: index of the first element equal to `x`,
`none` when absent (in Python a `ValueError` is raised). -/
def listIndex (xs : List ℚ) (x : ℚ) : Option ℕ :=
  match xs with
  | [] => none
  | t :: ts => if t = x then some 0 else (listIndex ts x).map (· + 1)

/-- Modelled from the spec: the repository module `ctcss_tones` (imported
as `ct` on line 11, not under `src/`) holds the externally supplied
ordered table of standard sub-audible CTCSS tone frequencies; the core
only indexes into it.  A prefix of the standard EIA tone list in Hz. -/
def ctcss_tones : List ℚ :=
  [67.0, 71.9, 74.4, 77.0, 79.7, 82.5, 85.4, 88.5, 91.5, 94.8,
   97.4, 100.0, 103.5, 107.2, 110.9, 114.8, 118.8, 123.0, 127.3, 131.8]

/-- Lines 182-192, `set_ctcss_tone(self, ctcss_tone)`, parametrised by
the tone table: `index = tones.index(ctcss_tone)` (raising `ValueError`
when absent); then `if (~index): index = 0` — Python `~index` is the
integer `-(index + 1)` and the branch is taken when it is nonzero; then
`ctcss_tone = tones[index]` is stored and returned.  The result carries
the final `(ctcss_index, ctcss_tone)` attribute pair; the returned value
equals the stored `ctcss_tone`. -/
def set_ctcss_tone (tones : List ℚ) (ctcss_tone : ℚ) : Except PyErr (ℕ × ℚ) :=
  match listIndex tones ctcss_tone with
  | none => .error .valueError
  | some idx =>
    let idx2 := if (-(idx + 1 : ℤ)) ≠ 0 then 0 else idx
    match tones.get? idx2 with
    | none => .error .indexError
    | some t => .ok (idx2, t)

/-- Argument record of a GNU Radio `analog.pwr_squelch_cc/ff(threshold_db,
alpha, ramp, gate)` constructor call. -/
structure PwrSquelch where
  threshold_db : ℤ
  alpha : ℚ
  ramp : ℕ
  gate : Bool
deriving DecidableEq, Repr

/-- Lines 80 and 113-115: the non-blocking squelch on the complex IF,
`analog.pwr_squelch_cc(squelch_db, 1e-1, 0, False)` with
`squelch_db = -60`. -/
def analog_pwr_squelch_cc : PwrSquelch :=
  ⟨-60, 1 / 10, 0, false⟩

/-- Lines 148-150: the blocking squelch ahead of the file sink,
`analog.pwr_squelch_ff(-200, 1e-1, 0, True)`. -/
def analog_pwr_squelch_ff : PwrSquelch :=
  ⟨-200, 1 / 10, 0, true⟩

/-- Linear power threshold `10^(threshold_db/10)` of a squelch gate.
Both thresholds used by the source (-60 and -200 dB) are multiples of
10 dB, so integer division by 10 is exact here. -/
def thresholdLin (c : PwrSquelch) : ℚ :=
  (10 : ℚ) ^ (c.threshold_db / 10)

/-- Modelled from the spec: the per-sample behaviour of the GNU Radio
power squelch (library code, not in `src/`).  The power estimate is
smoothed with constant `alpha`; the gate is open when the estimate
exceeds the threshold.  An open gate passes the sample; a closed
non-blocking gate (`gate = false`) substitutes a zero-amplitude sample;
a closed blocking gate (`gate = true`) emits nothing.  Returns the new
power estimate and the emitted samples. -/
def squelchStep (c : PwrSquelch) (avg x : ℚ) : ℚ × List ℚ :=
  let p := x * x
  let avg2 := c.alpha * p + (1 - c.alpha) * avg
  if thresholdLin c < avg2 then (avg2, [x])
  else (avg2, if c.gate then [] else [0])

/-- Modelled from the spec: running a power squelch over an input stream
from power estimate `avg`, concatenating the emitted samples. -/
def squelchRun (c : PwrSquelch) (avg : ℚ) (xs : List ℚ) : List ℚ :=
  match xs with
  | [] => []
  | x :: rest =>
    (squelchStep c avg x).2 ++ squelchRun c (squelchStep c avg x).1 rest

/-- State of the quadrature demodulator block together with the
`quad_demod_gain` attribute.  Line 81 sets `quad_demod_gain = 0.050`;
lines 119-120 construct `analog.quadrature_demod_cf(quad_demod_gain)`,
so both start at 0.050. -/
structure QuadDemodState where
  quad_demod_gain : ℝ
  block_gain : ℝ

/-- Initial quadrature-demodulator state after `__init__`. -/
def initQuadDemodState : QuadDemodState :=
  ⟨0.050, 0.050⟩

/-- Lines 173-180, `set_volume(self, volume_db)`: computes
`gain = quad_demod_gain * 10**(volume_db/20.0)` and calls
`set_gain(gain)` on the demodulator block; `quad_demod_gain` itself is
not modified. -/
noncomputable def set_volume (s : QuadDemodState) (volume_db : ℝ) : QuadDemodState :=
  ⟨s.quad_demod_gain, s.quad_demod_gain * (10 : ℝ) ^ (volume_db / 20)⟩

/-- Wav sample format constants of `gnuradio.blocks` used on lines
154-159. -/
inductive WavFormat where
  | pcm16
  | pcm8
deriving DecidableEq, Repr

/-- The audio sink the gated recording branch is connected to: either a
`blocks.wavfile_sink` (with its sample format and rate arguments) or a
`blocks.null_sink`. -/
inductive SinkChoice where
  | wav (fmt : WavFormat) (rate : ℕ)
  | nullSink
deriving DecidableEq, Repr

/-- Lines 152-171, the sink-selection branch of `__init__`: when
`record` is true, `audio_bps = 16` selects `FORMAT_PCM_16`,
`audio_bps = 8` selects `FORMAT_PCM_08`, and any other value falls
through to `FORMAT_PCM_16`; the wav sink is built at `audio_rate`.
When `record` is false a null sink is used. -/
def selectSink (record : Bool) (audio_bps : ℤ) (audio_rate : ℕ) : SinkChoice :=
  if record then
    let fmt := if audio_bps = 16 then WavFormat.pcm16
               else if audio_bps = 8 then WavFormat.pcm8
               else WavFormat.pcm16
    .wav fmt audio_rate
  else .nullSink

/-- The blocks of the flowgraph wired in `__init__`; `input` and
`output` are the hier block's own ports (`self` on lines 138 and 146). -/
inductive Node where
  | input
  | freqXlating
  | fir0
  | fir1
  | softSquelch
  | quadDemod
  | firAudio
  | pfbResamp
  | output
  | hardSquelch
  | wavSink
  | nullSink
deriving DecidableEq, Repr

/-- Lines 137-146 and 152-171: the `self.connect` edges of the
flowgraph, as ordered (source, destination) pairs; the last two edges
depend on the `record` flag. -/
def connections (record : Bool) : List (Node × Node) :=
  [(.input, .freqXlating), (.freqXlating, .fir0), (.fir0, .fir1),
   (.fir1, .softSquelch), (.softSquelch, .quadDemod),
   (.quadDemod, .firAudio), (.firAudio, .pfbResamp),
   (.pfbResamp, .output)] ++
  (if record then
    [(.pfbResamp, .hardSquelch), (.hardSquelch, .wavSink)]
   else
    [(.pfbResamp, .hardSquelch), (.hardSquelch, .nullSink)])

/-- Everything `__init__` computes that the claims refer to. -/
structure WBFMChain where
  decims : ℕ × ℕ
  taps0 : FirdesLowPass
  taps1 : FirdesLowPass
  softSquelch : PwrSquelch
  taps2 : FirdesLowPass
  pfbRatio : ℚ
  hardSquelch : PwrSquelch
  sink : SinkChoice
  conns : List (Node × Node)
deriving DecidableEq, Repr

/-- Lines 69-171, `TunerDemodWBFM.__init__` in statement order:
computes `decims`, designs the three low-pass filters, constructs the
two squelches and the resampler ratio, selects the sink and wires the
graph.  There is no input-rate validation; the only failure points are
the Python divisions, which raise `ZeroDivisionError` when
`decims[1] = 0` (first reached on line 124, the stage-3 filter rate;
line 133 would fail the same way).  GNU Radio block constructors are
external calls and are embedded as argument records that do not fail. -/
def tunerDemodWBFM_init (samp_rate audio_rate : ℕ) (record : Bool)
    (audio_bps : ℤ) : Except PyErr WBFMChain := do
  let decs := decims samp_rate
  let taps0 := low_pass_filter_taps_0
  let taps1rate ← pyDiv samp_rate ((decs.1 : ℚ) ^ 2)
  let taps2rate ← pyDiv samp_rate ((decs.2 : ℚ) * (decs.1 : ℚ) ^ 2)
  let preRate ← pyDiv samp_rate ((decs.2 : ℚ) * (decs.1 : ℚ) ^ 3)
  let ratio ← pyDiv audio_rate preRate
  pure
    { decims := decs
      taps0 := taps0
      taps1 := ⟨1, taps1rate, 12500, 1000, .hamming⟩
      softSquelch := analog_pwr_squelch_cc
      taps2 := ⟨1, taps2rate, 3500, 500, .hamming⟩
      pfbRatio := ratio
      hardSquelch := analog_pwr_squelch_ff
      sink := selectSink record audio_bps audio_rate
      conns := connections record }


/-- Helper for C3: Python `list.index` finds nothing when the element is
absent. -/
theorem listIndex_eq_none (tones : List ℚ) (f : ℚ) (h : f ∉ tones) :
    listIndex tones f = none := by
  induction tones with
  | nil => rfl
  | cons t ts ih =>
    simp only [List.mem_cons, not_or] at h
    have hne : ¬ t = f := fun ht => h.1 ht.symm
    simp only [listIndex, if_neg hne, ih h.2, Option.map_none']

/-- C8: the stage-2 decimation factor `decims[1]` is
`floor(samp_rate/1e6)`; at the boundaries, 1,000,000 ↦ 1,
1,960,000 ↦ 1 and 2,000,000 ↦ 2. -/
theorem decims_floor_boundaries (R : ℕ) :
    (decims R).2 = Nat.floor ((R : ℚ) / 1000000) ∧
    (decims 1000000).2 = 1 ∧ (decims 1960000).2 = 1 ∧ (decims 2000000).2 = 2 := by
  refine ⟨?_, by decide, by decide, by decide⟩
  rw [show ((1000000 : ℚ)) = ((1000000 : ℕ) : ℚ) by norm_num,
    Nat.floor_div_nat, Nat.floor_natCast]
  rfl

/-- C2: for any input rate `R` with 1e6 ≤ R < 2e6 and audio rate
`A ∈ {8000, 16000}`, the rate entering the resampler is
`R / (floor(R/1e6) · 5³)`, the resampler ratio is `A` divided by that
rate, and their product — the chain's output rate — is exactly `A`,
independent of `R`. -/
theorem final_rate_equals_audio_rate (R A : ℕ) (h1 : 1000000 ≤ R)
    (h2 : R < 2000000) (hA : A = 8000 ∨ A = 16000) :
    preResampRate R = (R : ℚ) / ((R / 1000000 : ℕ) * 125) ∧
    pfb_resamp R A = (A : ℚ) / preResampRate R ∧
    finalRate R A = A := by
  have hfact : 1 ≤ R / 1000000 := (Nat.one_le_div_iff (by norm_num)).2 h1
  have hRq : (R : ℚ) ≠ 0 := by
    have : 0 < R := lt_of_lt_of_le (by norm_num) h1
    exact_mod_cast this.ne'
  have hdq : ((R / 1000000 : ℕ) : ℚ) ≠ 0 := by
    exact_mod_cast (Nat.lt_of_lt_of_le Nat.zero_lt_one hfact).ne'
  have hpre : preResampRate R ≠ 0 := by
    unfold preResampRate decims
    exact div_ne_zero hRq (by positivity)
  refine ⟨?_, rfl, ?_⟩
  · unfold preResampRate decims
    norm_num
  · unfold finalRate pfb_resamp
    rw [mul_comm, div_mul_cancel₀ _ hpre]

/-- Witness for C2 at `R = 1,500,000`, `A = 8000`. -/
theorem final_rate_equals_audio_rate_witness :
    1000000 ≤ 1500000 ∧ 1500000 < 2000000 ∧ finalRate 1500000 8000 = 8000 :=
  ⟨by decide, by decide,
    (final_rate_equals_audio_rate 1500000 8000 (by decide) (by decide)
      (Or.inl rfl)).2.2⟩

/-- Counterexample for C7: at `samp_rate = 1,000,000` the 12.5 kHz
stage-2 filter is designed at 40,000 sps = samp_rate/25, which is not
the claimed stage-1 output rate samp_rate/5 = 200,000 sps. -/
theorem taps1_rate_not_stage1_rate :
    (low_pass_filter_taps_1 1000000).sampRate = 40000 ∧
    ¬ (low_pass_filter_taps_1 1000000).sampRate = (1000000 : ℚ) / 5 := by
  constructor
  · norm_num [low_pass_filter_taps_1, decims]
  · norm_num [low_pass_filter_taps_1, decims]

/-- C7 as amended: the stage-2 low-pass filter (12.5 kHz cutoff, 1 kHz
transition, Hamming) is designed at `samp_rate/decims[0]² = samp_rate/25`
— one fifth of the stage-1 output rate `samp_rate/5`, i.e. the rate
after both decimate-by-5 complex stages — not at `samp_rate/5`. -/
theorem taps1_design_rate (R : ℕ) :
    low_pass_filter_taps_1 R = ⟨1, (R : ℚ) / 25, 12500, 1000, .hamming⟩ ∧
    (low_pass_filter_taps_1 R).sampRate = ((R : ℚ) / 5) / 5 := by
  constructor
  · unfold low_pass_filter_taps_1 decims
    norm_num
  · unfold low_pass_filter_taps_1 decims
    norm_num
    ring

/-- C1 (code bug): 71.9 Hz is in the tone table at index 1, yet
`set_ctcss_tone(71.9)` stores index 0 and returns the table's first
tone 67.0 ≠ 71.9: the truthiness test `if (~index)` on line 189 holds
for every index `list.index` can return, so the fallback to index 0
always fires. -/
theorem set_ctcss_tone_fallback_bug :
    listIndex ctcss_tones (71.9 : ℚ) = some 1 ∧
    set_ctcss_tone ctcss_tones (71.9 : ℚ) = .ok (0, 67) ∧
    (71.9 : ℚ) ≠ 67 := by
  have h1 : listIndex ctcss_tones (71.9 : ℚ) = some 1 := by
    norm_num [ctcss_tones, listIndex]
  refine ⟨h1, ?_, by norm_num⟩
  simp only [set_ctcss_tone, h1]
  norm_num [ctcss_tones]

/-- C3: for a frequency absent from the tone table, `set_ctcss_tone`
fails with the `ValueError` that `list.index` raises; the index-0
fallback on lines 189-190 is never reached, so no first-entry value is
silently returned. -/
theorem set_ctcss_tone_absent_errors (tones : List ℚ) (f : ℚ)
    (h : f ∉ tones) :
    set_ctcss_tone tones f = .error .valueError := by
  unfold set_ctcss_tone
  rw [listIndex_eq_none tones f h]

/-- Witness for C3: 100.5 Hz is not a CTCSS tone and selecting it
errors. -/
theorem set_ctcss_tone_absent_errors_witness :
    (100.5 : ℚ) ∉ ctcss_tones ∧
    set_ctcss_tone ctcss_tones (100.5 : ℚ) = .error .valueError :=
  ⟨by norm_num [ctcss_tones],
    set_ctcss_tone_absent_errors ctcss_tones (100.5 : ℚ)
      (by norm_num [ctcss_tones])⟩


/-- Counterexample for C4: at `samp_rate = 999,999` the derived stage-2
factor is 0 and construction fails with a `ZeroDivisionError` from the
stage-3 filter-rate division, not with a `ConfigurationError` — there is
no validation of the input rate. -/
theorem init_below_rate_no_configuration_error :
    (decims 999999).2 = 0 ∧
    tunerDemodWBFM_init 999999 8000 false 8 = .error .zeroDivisionError ∧
    tunerDemodWBFM_init 999999 8000 false 8 ≠ .error .configurationError := by
  refine ⟨rfl, ?_, ?_⟩
  · norm_num [tunerDemodWBFM_init, decims, pyDiv, bind, Except.bind]
  · norm_num [tunerDemodWBFM_init, decims, pyDiv, bind, Except.bind]
    decide

/-- C4 as amended: for any `samp_rate < 1,000,000` the constructor
performs no rate validation: the stage-2 decimation factor
`int(samp_rate/1E6)` is 0, the zero factor is handed to the stage-2
filter, and construction then fails with a `ZeroDivisionError` when the
stage-3 filter rate `samp_rate/(decims[1]·25)` is computed; no
`ConfigurationError` is ever raised. -/
theorem init_below_rate_zero_division (R A : ℕ) (record : Bool) (bps : ℤ)
    (h : R < 1000000) :
    (decims R).2 = 0 ∧
    tunerDemodWBFM_init R A record bps = .error .zeroDivisionError := by
  have hd : R / 1000000 = 0 := Nat.div_eq_of_lt h
  refine ⟨by simp [decims, hd], ?_⟩
  norm_num [tunerDemodWBFM_init, decims, hd, pyDiv, bind, Except.bind]

/-- Witness for C4 (amended) at `samp_rate = 500,000`. -/
theorem init_below_rate_zero_division_witness :
    500000 < 1000000 ∧
    tunerDemodWBFM_init 500000 8000 true 16 = .error .zeroDivisionError :=
  ⟨by decide, (init_below_rate_zero_division 500000 8000 true 16 (by decide)).2⟩

/-- Helper for C5: the samples a squelch step emits, by gate
condition. -/
theorem squelchStep_snd (c : PwrSquelch) (avg x : ℚ) :
    (squelchStep c avg x).2 =
      if thresholdLin c < c.alpha * (x * x) + (1 - c.alpha) * avg then [x]
      else if c.gate then [] else [0] := by
  unfold squelchStep
  by_cases hlt : thresholdLin c < c.alpha * (x * x) + (1 - c.alpha) * avg <;>
    simp [hlt]

/-- Helper for C5: the power estimate a squelch step produces. -/
theorem squelchStep_fst (c : PwrSquelch) (avg x : ℚ) :
    (squelchStep c avg x).1 = c.alpha * (x * x) + (1 - c.alpha) * avg := by
  unfold squelchStep
  by_cases hlt : thresholdLin c < c.alpha * (x * x) + (1 - c.alpha) * avg <;>
    simp [hlt]

/-- Helper for C5: a non-blocking squelch step emits exactly the input
sample (gate open) or a single zero sample (gate closed). -/
theorem squelchStep_nonblocking (c : PwrSquelch) (h : c.gate = false)
    (avg x : ℚ) :
    (squelchStep c avg x).2 = [x] ∨ (squelchStep c avg x).2 = [0] := by
  rw [squelchStep_snd, h]
  by_cases hlt : thresholdLin c < c.alpha * (x * x) + (1 - c.alpha) * avg <;>
    simp [hlt]

/-- Helper for C5: a non-blocking squelch emits one sample per input
sample. -/
theorem squelchRun_length_nonblocking (c : PwrSquelch) (h : c.gate = false) :
    ∀ (xs : List ℚ) (avg : ℚ), (squelchRun c avg xs).length = xs.length := by
  intro xs
  induction xs with
  | nil => intro avg; rfl
  | cons x rest ih =>
    intro avg
    have hstep : (squelchStep c avg x).2.length = 1 := by
      rcases squelchStep_nonblocking c h avg x with h1 | h1 <;> rw [h1] <;> rfl
    simp only [squelchRun, List.length_append, List.length_cons, ih, hstep]
    omega

/-- Helper for C5: any squelch step emits at most one sample. -/
theorem squelchStep_length_le (c : PwrSquelch) (avg x : ℚ) :
    (squelchStep c avg x).2.length ≤ 1 := by
  rw [squelchStep_snd]
  split
  · exact le_refl 1
  · split <;> simp

/-- Helper for C5: a squelch never emits more samples than it
consumes. -/
theorem squelchRun_length_le (c : PwrSquelch) :
    ∀ (xs : List ℚ) (avg : ℚ), (squelchRun c avg xs).length ≤ xs.length := by
  intro xs
  induction xs with
  | nil => intro avg; exact le_refl 0
  | cons x rest ih =>
    intro avg
    simp only [squelchRun, List.length_append, List.length_cons]
    have := squelchStep_length_le c avg x
    have := ih (squelchStep c avg x).1
    omega

/-- C5: the soft squelch (line 114: threshold −60 dB, smoothing 0.1,
blocking flag `False`) emits exactly one sample per input sample and,
when its gate is closed, substitutes a zero-amplitude sample; the hard
squelch (line 150: threshold −200 dB, blocking flag `True`) emits
nothing while its gate is closed, never lengthens the stream, and on
some inputs shortens it. -/
theorem soft_squelch_flows_hard_squelch_blocks :
    analog_pwr_squelch_cc = ⟨-60, 1 / 10, 0, false⟩ ∧
    analog_pwr_squelch_ff = ⟨-200, 1 / 10, 0, true⟩ ∧
    (∀ (avg : ℚ) (xs : List ℚ),
      (squelchRun analog_pwr_squelch_cc avg xs).length = xs.length) ∧
    (∀ (avg x : ℚ),
      (squelchStep analog_pwr_squelch_cc avg x).2 = [x] ∨
      (squelchStep analog_pwr_squelch_cc avg x).2 = [0]) ∧
    (∀ (avg x : ℚ),
      thresholdLin analog_pwr_squelch_ff < (squelchStep analog_pwr_squelch_ff avg x).1 ∨
      (squelchStep analog_pwr_squelch_ff avg x).2 = []) ∧
    (∀ (avg : ℚ) (xs : List ℚ),
      (squelchRun analog_pwr_squelch_ff avg xs).length ≤ xs.length) ∧
    (∃ xs : List ℚ, (squelchRun analog_pwr_squelch_ff 0 xs).length < xs.length) := by
  refine ⟨rfl, rfl, ?_, ?_, ?_, ?_, ?_⟩
  · intro avg xs
    exact squelchRun_length_nonblocking analog_pwr_squelch_cc rfl xs avg
  · intro avg x
    exact squelchStep_nonblocking analog_pwr_squelch_cc rfl avg x
  · intro avg x
    rw [squelchStep_fst, squelchStep_snd]
    by_cases hlt : thresholdLin analog_pwr_squelch_ff <
        analog_pwr_squelch_ff.alpha * (x * x) +
          (1 - analog_pwr_squelch_ff.alpha) * avg
    · exact Or.inl hlt
    · refine Or.inr ?_
      rw [if_neg hlt]
      rfl
  · intro avg xs
    exact squelchRun_length_le analog_pwr_squelch_ff xs avg
  · refine ⟨[0], ?_⟩
    have hpos : 0 < thresholdLin analog_pwr_squelch_ff := by
      unfold thresholdLin
      positivity
    have h0 : analog_pwr_squelch_ff.alpha * ((0 : ℚ) * 0) +
        (1 - analog_pwr_squelch_ff.alpha) * 0 = 0 := by ring
    simp only [squelchRun, squelchStep_snd, h0]
    rw [if_neg (not_lt.mpr hpos.le)]
    simp [analog_pwr_squelch_ff]

/-- Helper for C6: no sequence of `set_volume` calls changes the
`quad_demod_gain` attribute. -/
theorem foldl_set_volume_base (l : List ℝ) (s : QuadDemodState) :
    (l.foldl set_volume s).quad_demod_gain = s.quad_demod_gain := by
  induction l generalizing s with
  | nil => rfl
  | cons v rest ih => simpa [List.foldl, set_volume] using ih (set_volume s v)

/-- C6: after any sequence of prior `set_volume` calls,
`set_volume(volume_db)` sets the demodulator block gain to
`0.050 · 10^(volume_db/20)`; in particular `set_volume(0)` sets it to
the base gain 0.050 and `set_volume(20)` to ten times the base gain. -/
theorem set_volume_gain (prior : List ℝ) (v : ℝ) :
    (set_volume (prior.foldl set_volume initQuadDemodState) v).block_gain
      = 0.050 * (10 : ℝ) ^ (v / 20) ∧
    (set_volume (prior.foldl set_volume initQuadDemodState) 0).block_gain
      = 0.050 ∧
    (set_volume (prior.foldl set_volume initQuadDemodState) 20).block_gain
      = 10 * 0.050 := by
  have hbase : (prior.foldl set_volume initQuadDemodState).quad_demod_gain
      = (0.050 : ℝ) := foldl_set_volume_base prior initQuadDemodState
  have key : ∀ w : ℝ,
      (set_volume (prior.foldl set_volume initQuadDemodState) w).block_gain
        = (0.050 : ℝ) * (10 : ℝ) ^ (w / 20) := by
    intro w
    show (prior.foldl set_volume initQuadDemodState).quad_demod_gain
        * (10 : ℝ) ^ (w / 20) = _
    rw [hbase]
  refine ⟨key v, ?_, ?_⟩
  · rw [key 0, show ((0 : ℝ) / 20) = 0 by norm_num, Real.rpow_zero, mul_one]
  · rw [key 20, show ((20 : ℝ) / 20) = 1 by norm_num, Real.rpow_one]
    ring

/-- C9: with `record = True`, `audio_bps = 16` yields a 16-bit PCM wav
sink, `audio_bps = 8` an 8-bit PCM wav sink, and any other bit depth
falls back to 16-bit PCM without failing; with `record = False` the
gated audio goes to a null sink. -/
theorem sink_selection (bps : ℤ) (rate : ℕ) :
    selectSink true 16 rate = .wav .pcm16 rate ∧
    selectSink true 8 rate = .wav .pcm8 rate ∧
    (bps ≠ 16 → bps ≠ 8 → selectSink true bps rate = .wav .pcm16 rate) ∧
    selectSink false bps rate = .nullSink := by
  refine ⟨rfl, rfl, ?_, rfl⟩
  intro h16 h8
  simp [selectSink, h16, h8]

/-- Witness for C9 at `audio_bps = 12`, `audio_rate = 8000`. -/
theorem sink_selection_witness :
    (12 : ℤ) ≠ 16 ∧ (12 : ℤ) ≠ 8 ∧
    selectSink true 12 8000 = .wav .pcm16 8000 :=
  ⟨by decide, by decide, (sink_selection 12 8000).2.2.1 (by decide) (by decide)⟩

/-- C10: for either value of the record flag, the resampler output
feeds the hier block's own output port, the only edge into that port is
from the resampler (so the delivered audio stream is identical for
`record = True` and `record = False` and is tapped before the hard
squelch), the resampler also feeds the hard squelch, and every edge out
of the hard squelch ends in a sink (wav or null) — the hard squelch
gates only the sink branch. -/
theorem output_tap_before_hard_squelch (record : Bool) :
    (Node.pfbResamp, Node.output) ∈ connections record ∧
    (Node.pfbResamp, Node.hardSquelch) ∈ connections record ∧
    (connections record).filter (fun e => e.2 == Node.output)
      = [(Node.pfbResamp, Node.output)] ∧
    ((connections record).all
      (fun e => !(e.1 == Node.hardSquelch)
        || (e.2 == Node.wavSink || e.2 == Node.nullSink))) = true ∧
    (connections true).filter (fun e => e.2 == Node.output)
      = (connections false).filter (fun e => e.2 == Node.output) := by
  cases record <;> exact ⟨by decide, by decide, by decide, by decide, by decide⟩

end WBFM
